import Mathlib

/-!
Verification development for the documentation-retrieval core of the
slingr-mcp repository (`src/rag.ts`).

The chunker, the ingestion pipeline and the retrieval service are embedded
as executable Lean functions.  External collaborators (the LanceDB vector
store and the transformer embedding model) are modelled as parameters: the
embedder is an arbitrary function `String → List Int`, and storage
failures that LanceDB could raise are injected through a
`StoreBehavior` oracle.  Machine floats never influence control flow in
the source, so vectors are modelled over `Int`.
-/

namespace SlingrRag

/-- ECMAScript `\s` character class (WhiteSpace ∪ LineTerminator), as used
both by the chunking regex `/^#+\s/gm` and by `String.prototype.trim`. -/
def isJsSpace (c : Char) : Bool :=
  let n := c.toNat
  n = 0x20 || n = 0x09 || n = 0x0a || n = 0x0b || n = 0x0c || n = 0x0d ||
  n = 0xa0 || n = 0x1680 || (0x2000 ≤ n && n ≤ 0x200a) ||
  n = 0x2028 || n = 0x2029 || n = 0x202f || n = 0x205f || n = 0x3000 || n = 0xfeff

/-- ECMAScript LineTerminator set: `^` in multiline mode matches right after
one of these characters. -/
def isLineTerm (c : Char) : Bool :=
  let n := c.toNat
  n = 0x0a || n = 0x0d || n = 0x2028 || n = 0x2029

/-- Prepend a character to the first segment of a segment list. -/
def consHead (c : Char) : List (List Char) → List (List Char)
  | [] => [[c]]
  | s :: ss => (c :: s) :: ss

/-- Prepend a run of characters to the first segment of a segment list. -/
def consAll (l : List Char) (segs : List (List Char)) : List (List Char) :=
  l.foldr consHead segs

/-- One-pass model of `content.split(/^#+\s/gm)` from `rag.ts`.
`pending` counts a run of `#` characters that began at a line start and is
not yet resolved; `atStart` records whether the current position is a line
start (string start or right after a LineTerminator).  A run of one or more
`#` at a line start followed by a `\s` character is a match: the matched
text (hashes plus the single whitespace character) is removed and a segment
boundary is emitted; otherwise the hashes are literal text. -/
def splitAux : List Char → Nat → Bool → List (List Char)
  | [], pending, _ => [List.replicate pending '#']
  | c :: cs, pending, atStart =>
    if 0 < pending then
      if c = '#' then
        splitAux cs (pending + 1) false
      else if isJsSpace c then
        [] :: splitAux cs 0 (isLineTerm c)
      else
        consAll (List.replicate pending '#' ++ [c]) (splitAux cs 0 false)
    else
      if atStart && c = '#' then
        splitAux cs 1 false
      else
        consHead c (splitAux cs 0 (isLineTerm c))

/-- `content.split(/^#+\s/gm)` on a whole document. -/
def splitHeaders (s : String) : List (List Char) :=
  splitAux s.data 0 true

/-- `String.prototype.trim`: strip `\s` characters from both ends. -/
def jsTrim (l : List Char) : List Char :=
  ((l.dropWhile isJsSpace).reverse.dropWhile isJsSpace).reverse

/-- JavaScript `String.prototype.length`: UTF-16 code units. -/
def jsLength (l : List Char) : Nat :=
  (l.map fun c => if c.toNat < 0x10000 then 1 else 2).sum

/-- The chunker of `RAGSystem.ingest` (rag.ts lines 79-82):
`content.split(/^#+\s/gm).map(c => c.trim()).filter(c => c.length > 50)`. -/
def chunk (content : String) : List String :=
  (((splitHeaders content).map jsTrim).filter fun c => 50 < jsLength c).map String.mk

/-- The chunker as the spec words it: segments *shorter than* the minimum
length of 50 characters are dropped, i.e. segments of length at least 50
are kept.  Same split and trim as the source; only the length rule follows
the spec text. -/
def chunkSpec (content : String) : List String :=
  (((splitHeaders content).map jsTrim).filter fun c => 50 ≤ jsLength c).map String.mk

/-- A stored row of the `documentation` table: `{vector, text, source}`. -/
structure Row where
  vector : List Int
  text : String
  source : String
deriving DecidableEq, Repr

/-- The error kinds the spec distinguishes.  `invalidInput` is listed so
that "fails with an input-validation error" is statable; the embedded code
never produces it, exactly as `rag.ts` never does. -/
inductive RagErr
  | notReady
  | invalidInput
  | emptyCorpus
  | storage (msg : String)
deriving DecidableEq, Repr

/-- Process state of `RAGSystem`: the explicit readiness flag plus the
persistent `documentation` table of the connected LanceDB store
(`none` when the table does not exist). -/
structure RagState where
  ready : Bool
  table : Option (List Row)
deriving DecidableEq, Repr

/-- Storage operations `ingest` can issue against the vector store. -/
inductive StoreOp
  | dropTable (name : String)
  | createTable (name : String) (rows : List Row)
deriving DecidableEq, Repr

/-- Oracle for failures of the external store during one `ingest` run:
an injected I/O failure of `dropTable` (beyond the ordinary
"table does not exist" case, which the store raises by itself when the
table is absent) and an injected failure of `createTable`. -/
structure StoreBehavior where
  dropIO : Option String
  createIO : Option String
deriving DecidableEq, Repr

/-- The rows accumulated by the ingestion loop (rag.ts lines 73-94): for
each file, every chunk becomes one `{vector, text, source}` row. -/
def buildRows (embed : String → List Int) (corpus : List (String × String)) : List Row :=
  (corpus.map fun fc => (chunk fc.2).map fun c =>
    { vector := embed c, text := c, source := fc.1 : Row }).flatten

deriving instance DecidableEq for Except

/-- Result of one `ingest` run: the new process state, the returned count
or thrown error, and the trace of storage operations attempted. -/
structure IngestOutcome where
  state : RagState
  result : Except RagErr Nat
  ops : List StoreOp
deriving DecidableEq, Repr

/-- `RAGSystem.ingest` (rag.ts lines 58-111).  Chunks and embeds the whole
corpus; if no rows were accumulated it throws the "No content found" error
before touching storage.  Otherwise it attempts `dropTable` inside a
`try`/`catch` whose catch block ignores *every* error, then `createTable`,
and on success sets the readiness flag and returns the row count.  A
`createTable` failure propagates after the old table was already
dropped. -/
def ingest (embed : String → List Int) (corpus : List (String × String))
    (beh : StoreBehavior) (st : RagState) : IngestOutcome :=
  let rows := buildRows embed corpus
  if rows.isEmpty then
    { state := st, result := .error .emptyCorpus, ops := [] }
  else
    let tableAfterDrop : Option (List Row) :=
      if beh.dropIO.isSome then st.table else none
    match beh.createIO with
    | some m =>
        { state := { ready := st.ready, table := tableAfterDrop },
          result := .error (.storage m),
          ops := [.dropTable "documentation", .createTable "documentation" rows] }
    | none =>
        { state := { ready := true, table := some rows },
          result := .ok rows.length,
          ops := [.dropTable "documentation", .createTable "documentation" rows] }

/-- Squared Euclidean distance between two vectors (LanceDB returns rows by
ascending `_distance`; the ranking is all the embedding needs). -/
def dist (v w : List Int) : Int :=
  ((v.zipWith (fun a b => (a - b) * (a - b)) w).foldr (· + ·) 0)

/-- Insert a (row, distance) pair into a list sorted by ascending distance. -/
def insertByDist (p : Row × Int) : List (Row × Int) → List (Row × Int)
  | [] => [p]
  | q :: qs => if p.2 < q.2 then p :: q :: qs else q :: insertByDist p qs

/-- Sort rows by ascending distance to the query vector. -/
def sortByDist (l : List (Row × Int)) : List (Row × Int) :=
  l.foldr insertByDist []

/-- `table.vectorSearch(queryVector).limit(limit).toArray()`: rows by
ascending distance, truncated to `limit` (a non-positive limit selects
nothing). -/
def vectorSearch (rows : List Row) (q : List Int) (limit : Int) : List Row :=
  ((sortByDist (rows.map fun r => (r, dist r.vector q))).map Prod.fst).take limit.toNat

/-- A shaped search result `{text, source, score}`. -/
structure SearchResult where
  text : String
  source : String
  score : Int
deriving DecidableEq, Repr

/-- `RAGSystem.search` (rag.ts lines 38-56): throws "not ready" when the
readiness flag is unset, otherwise embeds the query, opens the
`documentation` table (a storage error if it is absent), runs the vector
search and shapes the rows.  No validation of `limit` is performed. -/
def search (embed : String → List Int) (q : String) (limit : Int)
    (st : RagState) : Except RagErr (List SearchResult) :=
  if !st.ready then .error .notReady
  else
    match st.table with
    | none => .error (.storage "table not found")
    | some rows =>
        .ok ((vectorSearch rows (embed q) limit).map fun r =>
          { text := r.text, source := r.source, score := dist r.vector (embed q) })

/-- `RAGSystem.isReady` (rag.ts lines 34-36). -/
def isReady (st : RagState) : Bool :=
  st.ready

/-- The operations a process can perform on its `RAGSystem` singleton. -/
inductive Event
  | init
  | ingestEv (corpus : List (String × String)) (beh : StoreBehavior)
  | searchEv (q : String) (limit : Int)
deriving DecidableEq, Repr

/-- State transition of one operation.  `initialize` (rag.ts lines 15-32)
sets the readiness flag when the `documentation` table already exists in
the store; `search` never mutates state. -/
def step (embed : String → List Int) (st : RagState) : Event → RagState
  | .init => if st.table.isSome then { ready := true, table := st.table } else st
  | .ingestEv corpus beh => (ingest embed corpus beh st).state
  | .searchEv _ _ => st

/-- Run a sequence of operations from a state. -/
def run (embed : String → List Int) (st : RagState) : List Event → RagState
  | [] => st
  | e :: es => run embed (step embed st e) es

/-- Whether an event is an `ingest` call that succeeds (success depends
only on the corpus and the injected store failures, not on the state). -/
def ingestSucceedsEv (embed : String → List Int) : Event → Bool
  | .ingestEv corpus beh => !(buildRows embed corpus).isEmpty && beh.createIO.isNone
  | _ => false

/-- State of a process right after start: readiness flag false, the
on-disk table whatever a previous process left behind. -/
def startState (t : Option (List Row)) : RagState :=
  { ready := false, table := t }

/-- Effect of one storage operation on the `documentation` table, as a
reader of the store observes it. -/
def applyOp : Option (List Row) → StoreOp → Option (List Row)
  | _, .dropTable _ => none
  | _, .createTable _ rows => some rows

/-! Concrete fixtures used by counterexamples and witnesses. -/

/-- A deterministic stand-in embedding backend. -/
def embedC : String → List Int := fun _ => [0]

/-- A row of a previous index generation. -/
def r0 : Row :=
  { vector := [0], text := "old generation text", source := "old.md" }

/-- A document with no header lines whose trimmed text is 79 characters. -/
def longContent : String :=
  "This documentation section is certainly longer than fifty characters in total."

/-- A one-file corpus that yields exactly one chunk. -/
def corpusLong : List (String × String) := [("doc.md", longContent)]

/-- Store oracle with no injected failures. -/
def behOk : StoreBehavior := { dropIO := none, createIO := none }

/-- Store oracle whose `dropTable` fails with a real I/O error. -/
def behDropFail : StoreBehavior := { dropIO := some "disk I/O failure", createIO := none }

/-- A process state holding a previous index generation. -/
def stOld : RagState := { ready := true, table := some [r0] }

/-- `guide.md` of the spec's concrete scenario. -/
def guideContent : String := "# Setup\nRun the installer and accept defaults."

/-- `notes.md` of the spec's concrete scenario. -/
def notesContent : String := "# X\nshort"

/-- The spec's concrete two-file corpus. -/
def corpusC8 : List (String × String) :=
  [("guide.md", guideContent), ("notes.md", notesContent)]

/-- A 60-character body with no header marker. -/
def bodyC9 : String := "aaaaaaaaaaaaaaaaaaaaaaaaaaaaaaaaaaaaaaaaaaaaaaaaaaaaaaaaaaaa"

/-- A document with one header line above `bodyC9`. -/
def docC9 : String :=
  "# Setup\naaaaaaaaaaaaaaaaaaaaaaaaaaaaaaaaaaaaaaaaaaaaaaaaaaaaaaaaaaaa"

/-- A headerless document of exactly 50 characters. -/
def doc50 : String := "bbbbbbbbbbbbbbbbbbbbbbbbbbbbbbbbbbbbbbbbbbbbbbbbbb"

/-! Helper lemmas shared by the claim theorems. -/

theorem splitAux_no_hash (l : List Char) : ∀ b : Bool, '#' ∉ l → splitAux l 0 b = [l] := by
  induction l with
  | nil => intro b _; rfl
  | cons c cs ih =>
    intro b h
    have hc : ¬(c = '#') := fun hh => h (hh ▸ List.mem_cons_self c cs)
    have hcs : '#' ∉ cs := fun hh => h (List.mem_cons_of_mem c hh)
    simp [splitAux, hc, consHead, ih _ hcs]

theorem jsTrim_all_space (l : List Char) (h : ∀ c ∈ l, isJsSpace c = true) :
    jsTrim l = [] := by
  unfold jsTrim
  have hd : l.dropWhile isJsSpace = [] := by
    induction l with
    | nil => rfl
    | cons c cs ih =>
      simp only [List.dropWhile]
      rw [h c (List.mem_cons_self c cs)]
      exact ih fun x hx => h x (List.mem_cons_of_mem c hx)
  rw [hd]
  rfl

/-- C1: the chunker is the source pipeline — split on `/^#+\s/gm`
boundaries, trim each segment, keep exactly the segments of length
strictly greater than 50 (the code's `c.length > 50`, so a segment of
exactly 50 characters is dropped, contrary to the claim's
"shorter than 50 are dropped" rule); a document with no header boundary is
one trimmed segment under the same rule, and a whitespace-only document
yields zero chunks. -/
theorem C1_chunk_amended :
    (∀ s : String,
      chunk s = (((splitHeaders s).map jsTrim).filter fun c => 50 < jsLength c).map String.mk)
    ∧ (∀ s : String, splitHeaders s = [s.data] →
      chunk s = if 50 < jsLength (jsTrim s.data) then [String.mk (jsTrim s.data)] else [])
    ∧ (∀ s : String, (∀ c ∈ s.data, isJsSpace c = true) → chunk s = []) := by
  refine ⟨fun s => rfl, fun s h => ?_, fun s h => ?_⟩
  · unfold chunk
    rw [h]
    by_cases hl : 50 < jsLength (jsTrim s.data)
    · rw [if_pos hl]
      simp [List.filter, hl]
    · rw [if_neg hl]
      simp [List.filter, hl]
  · have hns : '#' ∉ s.data := by
      intro hc
      have := h _ hc
      simp [isJsSpace] at this
    have hsp : splitHeaders s = [s.data] := splitAux_no_hash s.data true hns
    unfold chunk
    rw [hsp]
    simp [List.filter, jsTrim_all_space s.data h, jsLength]

/-- C1 counterexample: a headerless document of exactly 50 characters is
dropped by the code (`length > 50`) but kept by the claim's
"shorter than 50 are dropped" rule. -/
theorem C1_counterexample :
    jsLength doc50.data = 50 ∧ chunk doc50 = [] ∧ chunkSpec doc50 = [doc50] := by
  decide

/-- C1 witness: the amended theorem applied at concrete documents. -/
theorem C1_witness :
    chunk "  \n   " = []
    ∧ chunk longContent
        = if 50 < jsLength (jsTrim longContent.data)
          then [String.mk (jsTrim longContent.data)] else [] :=
  ⟨C1_chunk_amended.2.2 "  \n   " (by decide),
   C1_chunk_amended.2.1 longContent (by decide)⟩

/-- C2: on a corpus with zero eligible chunks, `ingest` fails with the
"no content" error, issues no `dropTable` and no `createTable`, and leaves
the state (in particular any prior index table) unchanged. -/
theorem C2_empty_corpus (embed : String → List Int) (corpus : List (String × String))
    (beh : StoreBehavior) (st : RagState) (h : buildRows embed corpus = []) :
    (ingest embed corpus beh st).result = Except.error RagErr.emptyCorpus
    ∧ (ingest embed corpus beh st).ops = []
    ∧ (ingest embed corpus beh st).state = st := by
  simp [ingest, h]

/-- C2 witness: the theorem applied to the spec's short two-file corpus,
which yields no chunk at all, run against a state holding a prior index. -/
theorem C2_witness :
    buildRows embedC corpusC8 = []
    ∧ (ingest embedC corpusC8 behOk stOld).result = Except.error RagErr.emptyCorpus
    ∧ (ingest embedC corpusC8 behOk stOld).ops = []
    ∧ (ingest embedC corpusC8 behOk stOld).state = stOld :=
  ⟨by decide, C2_empty_corpus embedC corpusC8 behOk stOld (by decide)⟩

theorem step_not_ready (embed : String → List Int) (e : Event)
    (h : ingestSucceedsEv embed e = false) :
    step embed (startState none) e = startState none := by
  cases e with
  | init => rfl
  | searchEv q lim => rfl
  | ingestEv corpus beh =>
    simp only [step, ingest]
    by_cases he : (buildRows embed corpus).isEmpty
    · simp [he]
    · have hc : beh.createIO.isNone = false := by
        simp only [ingestSucceedsEv, Bool.and_eq_false_iff] at h
        rcases h with h | h
        · simp [he] at h
        · exact h
      cases hcc : beh.createIO with
      | none => rw [hcc] at hc; simp at hc
      | some m => simp [he, hcc, startState]

theorem run_not_ready (embed : String → List Int) (evs : List Event)
    (h : ∀ e ∈ evs, ingestSucceedsEv embed e = false) :
    run embed (startState none) evs = startState none := by
  induction evs with
  | nil => rfl
  | cons e es ih =>
    simp only [run, step_not_ready embed e (h e (List.mem_cons_self e es))]
    exact ih fun x hx => h x (List.mem_cons_of_mem e hx)

/-- C3 (amended): in a process that starts with no `documentation` table
on disk, as long as no `ingest` call has succeeded, the readiness flag is
false and `search` fails with the "not ready" error; after a successful
`ingest`, `isReady` is true and `search` no longer fails with it.  The
original claim required no pre-existing table: `initialize` also sets the
readiness flag when it finds a table left by a previous process, without
any index having been built in this process lifetime. -/
theorem C3_ready_amended :
    (∀ (embed : String → List Int) (evs : List Event),
      (∀ e ∈ evs, ingestSucceedsEv embed e = false) →
      isReady (run embed (startState none) evs) = false
      ∧ ∀ q lim, search embed q lim (run embed (startState none) evs)
          = Except.error RagErr.notReady)
    ∧ (∀ (embed : String → List Int) (corpus : List (String × String))
        (beh : StoreBehavior) (st : RagState) (n : Nat),
      (ingest embed corpus beh st).result = Except.ok n →
      isReady (ingest embed corpus beh st).state = true
      ∧ ∀ q lim, search embed q lim (ingest embed corpus beh st).state
          ≠ Except.error RagErr.notReady) := by
  constructor
  · intro embed evs h
    rw [run_not_ready embed evs h]
    exact ⟨rfl, fun q lim => rfl⟩
  · intro embed corpus beh st n h
    by_cases he : (buildRows embed corpus).isEmpty
    · simp [ingest, he] at h
    · cases hc : beh.createIO with
      | some m => simp [ingest, he, hc] at h
      | none =>
        simp only [ingest, he, hc]
        exact ⟨by simp [isReady, he], fun q lim => by simp [search, he]⟩

set_option maxRecDepth 4000 in
/-- C3 counterexample: a process whose store already holds a table from a
previous run performs only `initialize` — no index is built in this
process lifetime — yet `isReady` becomes true and `search` does not fail
with the "not ready" error. -/
theorem C3_counterexample :
    ingestSucceedsEv embedC Event.init = false
    ∧ isReady (run embedC (startState (some [r0])) [Event.init]) = true
    ∧ search embedC "q" 3 (run embedC (startState (some [r0])) [Event.init])
        ≠ Except.error RagErr.notReady := by
  decide

set_option maxRecDepth 4000 in
/-- C3 witness: the amended theorem at a concrete trace and a concrete
successful ingestion. -/
theorem C3_witness :
    isReady (run embedC (startState none) [Event.init]) = false
    ∧ search embedC "q" 3 (run embedC (startState none) [Event.init])
        = Except.error RagErr.notReady
    ∧ isReady (ingest embedC corpusLong behOk (startState none)).state = true
    ∧ search embedC "q" 3 (ingest embedC corpusLong behOk (startState none)).state
        ≠ Except.error RagErr.notReady := by
  have h1 := C3_ready_amended.1 embedC [Event.init] (by decide)
  have h2 := C3_ready_amended.2 embedC corpusLong behOk (startState none) 1 (by decide)
  exact ⟨h1.1, h1.2 "q" 3, h2.1, h2.2 "q" 3⟩

/-- C4 (amended): `search` performs no validation of `limit` and never
fails with an input-validation error for any limit — a non-positive limit
is simply forwarded to the storage layer's limit clause — while every
successful call returns at most `limit.toNat` results. -/
theorem C4_limit_amended :
    (∀ (embed : String → List Int) (q : String) (lim : Int) (st : RagState),
      search embed q lim st ≠ Except.error RagErr.invalidInput)
    ∧ (∀ (embed : String → List Int) (q : String) (lim : Int) (st : RagState)
        (res : List SearchResult),
      search embed q lim st = Except.ok res → res.length ≤ lim.toNat) := by
  constructor
  · intro embed q lim st
    rcases st with ⟨r, t⟩
    cases r <;> cases t <;> simp [search]
  · intro embed q lim st res h
    rcases st with ⟨r, t⟩
    cases r with
    | false => simp [search] at h
    | true =>
      cases t with
      | none => simp [search] at h
      | some rows =>
        simp only [search, Bool.not_true, Bool.false_eq_true, if_false] at h
        rw [Except.ok.injEq] at h
        subst h
        simp only [List.length_map, vectorSearch, List.length_take]
        exact Nat.min_le_left _ _

/-- C4 counterexample: with `limit = 0` (and `limit = -2`) on a ready
state, `search` does not fail with an input-validation error — it returns
an empty result instead of the error the claim requires. -/
theorem C4_counterexample :
    search embedC "q" 0 stOld = Except.ok []
    ∧ search embedC "q" 0 stOld ≠ Except.error RagErr.invalidInput
    ∧ search embedC "q" (-2) stOld ≠ Except.error RagErr.invalidInput := by
  decide

/-- C4 witness: the amended theorem at a concrete state and limit. -/
theorem C4_witness :
    search embedC "q" 0 stOld ≠ Except.error RagErr.invalidInput
    ∧ [{ text := "old generation text", source := "old.md", score := 0 : SearchResult }].length
        ≤ (3 : Int).toNat :=
  ⟨C4_limit_amended.1 embedC "q" 0 stOld,
   C4_limit_amended.2 embedC "q" 3 stOld _ (by decide)⟩

/-- C5 (amended): during an `ingest` run a reader never observes a
partially written or mixed-generation `documentation` table — every state
the storage operations pass through is the complete old table, the
complete new table, or no table at all.  The original claim's "old or new
only" is refuted by the window between `dropTable` and `createTable`, in
which the table is absent. -/
theorem C5_swap_amended (embed : String → List Int) (corpus : List (String × String))
    (beh : StoreBehavior) (st : RagState) (k : Nat) :
    ((ingest embed corpus beh st).ops.take k).foldl applyOp st.table = st.table
    ∨ ((ingest embed corpus beh st).ops.take k).foldl applyOp st.table = none
    ∨ ((ingest embed corpus beh st).ops.take k).foldl applyOp st.table
        = some (buildRows embed corpus) := by
  by_cases he : (buildRows embed corpus).isEmpty
  · left
    simp [ingest, he]
  · have hops : (ingest embed corpus beh st).ops
        = [StoreOp.dropTable "documentation",
           StoreOp.createTable "documentation" (buildRows embed corpus)] := by
      cases hc : beh.createIO <;> simp [ingest, he, hc]
    rw [hops]
    match k with
    | 0 => left; rfl
    | 1 => right; left; rfl
    | n + 2 => right; right; simp [List.take, applyOp]

set_option maxRecDepth 4000 in
/-- C5 counterexample: with a prior generation in the store, after the
first storage operation of a successful `ingest` run (the drop) a reader
observes no table — neither the complete old table nor the complete new
one. -/
theorem C5_counterexample :
    ((ingest embedC corpusLong behOk stOld).ops.take 1).foldl applyOp stOld.table = none
    ∧ stOld.table ≠ none
    ∧ (ingest embedC corpusLong behOk stOld).state.table ≠ none := by
  decide

/-- C6 (amended): the `try`/`catch` around `dropTable` is a blanket
catch-all — the outcome of `ingest` is the same whether `dropTable`
succeeds, fails because the table does not exist, or fails with a real
storage I/O error; no `dropTable` failure ever propagates to the
caller. -/
theorem C6_drop_amended (embed : String → List Int) (corpus : List (String × String))
    (d : Option String) (k : Option String) (st : RagState) :
    (ingest embed corpus { dropIO := d, createIO := k } st).result
      = (ingest embed corpus { dropIO := none, createIO := k } st).result := by
  by_cases he : (buildRows embed corpus).isEmpty <;> cases k <;> simp [ingest, he]

set_option maxRecDepth 4000 in
/-- C6 counterexample: a real I/O failure of `dropTable` — not a
"table does not exist" failure — is silently swallowed: `ingest` still
succeeds instead of propagating the storage error. -/
theorem C6_counterexample :
    (ingest embedC corpusLong behDropFail stOld).result = Except.ok 1
    ∧ (ingest embedC corpusLong behDropFail stOld).result
        ≠ Except.error (RagErr.storage "disk I/O failure") := by
  decide

/-- C7: `ingest` is idempotent on an unchanged corpus — if a run succeeds
with count `n`, running it again from the resulting state succeeds with
the same count and produces an index with exactly the same rows (the
success, the count and the rows depend only on the corpus and the
embedding backend, not on the prior state). -/
theorem C7_idempotent (embed : String → List Int) (corpus : List (String × String))
    (beh : StoreBehavior) (st : RagState) (n : Nat)
    (h : (ingest embed corpus beh st).result = Except.ok n) :
    (ingest embed corpus beh (ingest embed corpus beh st).state).result = Except.ok n
    ∧ (ingest embed corpus beh (ingest embed corpus beh st).state).state.table
        = (ingest embed corpus beh st).state.table
    ∧ (ingest embed corpus beh st).state.table = some (buildRows embed corpus) := by
  by_cases he : (buildRows embed corpus).isEmpty
  · simp [ingest, he] at h
  · cases hc : beh.createIO with
    | some m => simp [ingest, he, hc] at h
    | none =>
      simp only [ingest, he, hc] at h ⊢
      simp at h
      simp [h]

/-- C7 witness: the theorem at a concrete one-chunk corpus. -/
theorem C7_witness :
    (ingest embedC corpusLong behOk
        (ingest embedC corpusLong behOk (startState none)).state).result = Except.ok 1
    ∧ (ingest embedC corpusLong behOk
        (ingest embedC corpusLong behOk (startState none)).state).state.table
        = (ingest embedC corpusLong behOk (startState none)).state.table
    ∧ (ingest embedC corpusLong behOk (startState none)).state.table
        = some (buildRows embedC corpusLong) :=
  C7_idempotent embedC corpusLong behOk (startState none) 1 (by decide)

/-- C8 (amended): on the spec's concrete corpus, the single segment of
`guide.md` — "Setup\nRun the installer and accept defaults." — has only 44
characters after trimming, not more than 50, so it is dropped like the
short `notes.md` segment; `ingest` therefore accumulates zero chunks and
fails with the "no content" error without touching storage, for every
embedding backend, store behavior and prior state. -/
theorem C8_scenario_amended :
    chunk guideContent = []
    ∧ chunk notesContent = []
    ∧ ((splitHeaders guideContent).map fun seg => jsLength (jsTrim seg)) = [0, 44]
    ∧ ∀ (embed : String → List Int) (beh : StoreBehavior) (st : RagState),
        (ingest embed corpusC8 beh st).result = Except.error RagErr.emptyCorpus
        ∧ (ingest embed corpusC8 beh st).ops = [] := by
  refine ⟨by decide, by decide, by decide, fun embed beh st => ?_⟩
  have h : buildRows embed corpusC8 = [] := by
    simp [buildRows, corpusC8,
      show chunk guideContent = [] from by decide,
      show chunk notesContent = [] from by decide]
  constructor <;> simp [ingest, h]

set_option maxRecDepth 4000 in
/-- C8 counterexample: on the spec's concrete corpus, `ingest` does not
succeed with one chunk sourced from `guide.md` — it fails with the
"no content" error. -/
theorem C8_counterexample :
    (ingest embedC corpusC8 behOk (startState none)).result ≠ Except.ok 1
    ∧ (ingest embedC corpusC8 behOk (startState none)).result
        = Except.error RagErr.emptyCorpus := by
  decide

theorem splitAux_hash_run (w : Char) (rest : List Char) (hw : isJsSpace w = true) :
    ∀ j p : Nat, splitAux (List.replicate j '#' ++ w :: rest) (p + 1) false
      = [] :: splitAux rest 0 (isLineTerm w) := by
  intro j
  induction j with
  | zero =>
    intro p
    have hwne : ¬(w = '#') := by
      intro hh
      rw [hh] at hw
      simp [isJsSpace] at hw
    simp [splitAux, hwne, hw]
  | succ j ih =>
    intro p
    rw [List.replicate_succ, List.cons_append]
    simp [splitAux]
    exact ih (p + 1)

theorem splitHeaders_header (k : Nat) (w : Char) (rest : List Char)
    (hw : isJsSpace w = true) :
    splitHeaders (String.mk (List.replicate (k + 1) '#' ++ w :: rest))
      = [] :: splitAux rest 0 (isLineTerm w) := by
  unfold splitHeaders
  have h0 : (String.mk (List.replicate (k + 1) '#' ++ w :: rest)).data
      = '#' :: (List.replicate k '#' ++ w :: rest) := by
    rw [List.replicate_succ, List.cons_append]
  rw [h0]
  have h1 : splitAux ('#' :: (List.replicate k '#' ++ w :: rest)) 0 true
      = splitAux (List.replicate k '#' ++ w :: rest) 1 false := by
    simp [splitAux]
  rw [h1, splitAux_hash_run w rest hw k 0]

theorem mem_chunk_of_mem_split (doc : String) (seg : List Char)
    (h1 : seg ∈ splitHeaders doc) (h2 : 50 < jsLength (jsTrim seg)) :
    String.mk (jsTrim seg) ∈ chunk doc := by
  unfold chunk
  refine List.mem_map_of_mem String.mk ?_
  exact List.mem_filter.mpr ⟨List.mem_map_of_mem jsTrim h1, decide_eq_true h2⟩

/-- C9 (amended): every segment the header split produces whose trimmed
text is longer than 50 characters appears, trimmed, among the chunks of
the document; a header match — one or more `#` markers at a line start
followed by a single `\s` character — contributes an empty leading segment
and otherwise leaves exactly the sections of the remaining text, so a
document beginning with such a header line yields, for each of its
sections with trimmed content longer than 50 characters, a chunk equal to
that trimmed section content, which starts right after the matched
markers and whitespace and therefore retains the header's title text
rather than being the body below the header line. -/
theorem C9_header_amended :
    (∀ (doc : String) (seg : List Char),
      seg ∈ splitHeaders doc → 50 < jsLength (jsTrim seg) →
      String.mk (jsTrim seg) ∈ chunk doc)
    ∧ (∀ (k : Nat) (w : Char) (rest : List Char), isJsSpace w = true →
      splitHeaders (String.mk (List.replicate (k + 1) '#' ++ w :: rest))
        = [] :: splitAux rest 0 (isLineTerm w))
    ∧ (∀ (k : Nat) (w : Char) (rest : List Char), isJsSpace w = true →
      ∀ seg ∈ splitAux rest 0 (isLineTerm w), 50 < jsLength (jsTrim seg) →
      String.mk (jsTrim seg)
        ∈ chunk (String.mk (List.replicate (k + 1) '#' ++ w :: rest))) := by
  refine ⟨fun doc seg h1 h2 => mem_chunk_of_mem_split doc seg h1 h2,
          fun k w rest hw => splitHeaders_header k w rest hw,
          fun k w rest hw seg hseg hlen => ?_⟩
  refine mem_chunk_of_mem_split _ seg ?_ hlen
  rw [splitHeaders_header k w rest hw]
  exact List.mem_cons_of_mem _ hseg

/-- C9 counterexample: the document "# Setup" over a 60-character body has
one header line and a body longer than the minimum chunk length, yet no
chunk of it equals the trimmed body — the single chunk it yields keeps the
header title "Setup" in front of the body. -/
theorem C9_counterexample :
    docC9 = "# Setup\n" ++ bodyC9
    ∧ jsTrim bodyC9.data = bodyC9.data
    ∧ 50 < jsLength bodyC9.data
    ∧ chunk docC9 = ["Setup\n" ++ bodyC9]
    ∧ (chunk docC9).contains bodyC9 = false := by
  decide

set_option maxRecDepth 8000 in
/-- C9 witness: the amended theorem at a concrete two-section document
whose leading header uses two `#` markers and a tab — the first section's
trimmed content appears among the chunks. -/
theorem C9_witness :
    String.mk (jsTrim ("Setup\n" ++ bodyC9 ++ "\n").data)
      ∈ chunk (String.mk (List.replicate 2 '#' ++ '\t' ::
          ("Setup\n" ++ bodyC9 ++ "\n# Next\n" ++ bodyC9).data)) :=
  C9_header_amended.2.2 1 '\t' ("Setup\n" ++ bodyC9 ++ "\n# Next\n" ++ bodyC9).data
    (by decide) (("Setup\n" ++ bodyC9 ++ "\n").data) (by decide) (by decide)

/-- C10: the readiness flag is monotone — no operation of the system ever
clears it — and a failed `ingest` (empty corpus, or a storage failure of
`createTable` after the old table was dropped) leaves it exactly as it
was. -/
theorem C10_ready_monotone :
    (∀ (embed : String → List Int) (st : RagState) (e : Event),
      isReady st = true → isReady (step embed st e) = true)
    ∧ (∀ (embed : String → List Int) (corpus : List (String × String))
        (beh : StoreBehavior) (st : RagState) (err : RagErr),
      (ingest embed corpus beh st).result = Except.error err →
      isReady (ingest embed corpus beh st).state = isReady st) := by
  constructor
  · intro embed st e h
    cases e with
    | init =>
      by_cases ht : st.table.isSome
      · simp [step, ht, isReady]
      · simpa [step, ht, isReady] using h
    | searchEv q lim => exact h
    | ingestEv corpus beh =>
      by_cases he : (buildRows embed corpus).isEmpty
      · simpa [step, ingest, he, isReady] using h
      · cases hc : beh.createIO with
        | some m => simpa [step, ingest, he, hc, isReady] using h
        | none => simp [step, ingest, he, hc, isReady]
  · intro embed corpus beh st err h
    by_cases he : (buildRows embed corpus).isEmpty
    · simp [ingest, he]
    · cases hc : beh.createIO with
      | some m => simp [ingest, he, hc, isReady]
      | none => simp [ingest, he, hc] at h

/-- C10 witness: the monotonicity part at a ready state under
`initialize`, and the failed-ingest part at the empty two-file corpus. -/
theorem C10_witness :
    isReady (step embedC stOld Event.init) = true
    ∧ isReady (ingest embedC corpusC8 behOk stOld).state = isReady stOld :=
  ⟨C10_ready_monotone.1 embedC stOld Event.init (by decide),
   C10_ready_monotone.2 embedC corpusC8 behOk stOld RagErr.emptyCorpus (by decide)⟩

end SlingrRag
